import Mathlib

/-!
Verification of the panda SocketCAN driver (`driver/panda.c`): a shallow
embedding of the wire codec, the TX context pool, the completion callbacks
and the RX framing loop, with theorems settling the specification's claims.
Machine integers are modelled as `Nat` with explicit `% 2 ^ 32` where the C
code computes in `u32`.
-/

namespace Panda

/-- `PANDA_MAX_TX_URBS` from panda.c: capacity of the TX context pool. -/
def PANDA_MAX_TX_URBS : Nat := 20

/-- `PANDA_CTX_FREE` from panda.c: sentinel `ndx` value marking a free slot. -/
def PANDA_CTX_FREE : Nat := PANDA_MAX_TX_URBS

/-- Bit 0 of `rir`: transmit flag. -/
def PANDA_CAN_TRANSMIT : Nat := 1

/-- Bit 2 of `rir`: extended-id flag. -/
def PANDA_CAN_EXTENDED : Nat := 4

/-- Low-4-bit mask applied to `bus_dat_len` on decode. -/
def PANDA_DLC_MASK : Nat := 0x0F

/-- Linux `CAN_EFF_FLAG`: bit 31 of `can_id` marks an extended (29-bit) id. -/
def CAN_EFF_FLAG : Nat := 0x80000000

/-- Linux SocketCAN frame as panda.c uses it: `can_id` is the 32-bit id word
(bit 31 = `CAN_EFF_FLAG` tags an extended id), `can_dlc` the data length
code, `data` the payload bytes. -/
structure can_frame where
  can_id : Nat
  can_dlc : Nat
  data : List Nat
  deriving Repr, DecidableEq

/-- `struct panda_usb_can_msg`: the fixed 16-byte wire message; `rir` and
`bus_dat_len` are the two little-endian `u32` fields, `data` the 8 payload
bytes. -/
structure panda_usb_can_msg where
  rir : Nat
  bus_dat_len : Nat
  data : List Nat
  deriving Repr, DecidableEq

/-- The `rir`/`bus_dat_len`/`data` packing performed by
`panda_usb_start_xmit` (panda.c lines 420-428); `bus` is the bus index,
which the source fixes to 0.  The C struct is zero-initialised and `memcpy`
then fills the first `can_dlc` payload bytes. -/
def encode_msg (cf : can_frame) (bus : Nat) : panda_usb_can_msg :=
  { rir :=
      if cf.can_id &&& CAN_EFF_FLAG ≠ 0 then
        (((cf.can_id &&& 0x1FFFFFFF) <<< 3) |||
          PANDA_CAN_TRANSMIT ||| PANDA_CAN_EXTENDED) % 2 ^ 32
      else
        (((cf.can_id &&& 0x7FF) <<< 21) ||| PANDA_CAN_TRANSMIT) % 2 ^ 32,
    bus_dat_len := ((cf.can_dlc &&& 0x0F) ||| (bus <<< 4)) % 2 ^ 32,
    data := cf.data.take cf.can_dlc ++ List.replicate (8 - cf.can_dlc) 0 }

/-- `get_can_dlc` from `linux/can/dev.h` (external collaborator, part of the
SocketCAN API): clamp a wire DLC to `CAN_MAX_DLC = 8`. -/
def get_can_dlc (d : Nat) : Nat := min d 8

/-- The unpacking performed by `panda_usb_process_can_rx` (panda.c lines
235-247): choose the id interpretation from the extended-flag bit, mask and
clamp the DLC, and copy `can_dlc` payload bytes. -/
def decode_msg (msg : panda_usb_can_msg) : can_frame :=
  let can_id :=
    if msg.rir &&& PANDA_CAN_EXTENDED ≠ 0 then (msg.rir >>> 3) ||| CAN_EFF_FLAG
    else msg.rir >>> 21
  let dlc := get_can_dlc (msg.bus_dat_len &&& PANDA_DLC_MASK)
  { can_id := can_id, can_dlc := dlc, data := msg.data.take dlc }

/-- Validity of a CAN frame as assumed by the round-trip property: the id is
an 11-bit standard id, or a 29-bit id tagged with `CAN_EFF_FLAG`; the DLC is
at most 8 and the payload has exactly DLC bytes. -/
def valid_frame (cf : can_frame) : Prop :=
  cf.can_dlc ≤ 8 ∧ cf.data.length = cf.can_dlc ∧
    (cf.can_id < 2 ^ 11 ∨ ∃ b, b < 2 ^ 29 ∧ cf.can_id = b ||| CAN_EFF_FLAG)

/-- One `struct panda_usb_ctx`: the `ndx` field (its own slot index while
busy, `PANDA_CTX_FREE` while free) and the recorded `dlc` of the in-flight
frame. -/
structure panda_usb_ctx where
  ndx : Nat
  dlc : Nat
  deriving Repr, DecidableEq

/-- The pool-relevant part of `struct panda_priv`: the `tx_context` array
(a list of length `PANDA_MAX_TX_URBS`) and the atomic counter
`free_ctx_cnt` (an `Int`, as the C `atomic_t` is signed). -/
structure panda_priv where
  tx_context : List panda_usb_ctx
  free_ctx_cnt : Int
  deriving Repr, DecidableEq

/-- `panda_init_ctx` (panda.c lines 68-78): every slot's `ndx` is set to
`PANDA_CTX_FREE` and the counter to the array size.  The C code does not
touch `dlc`; its initial value (0 here) is immaterial. -/
def panda_init_ctx : panda_priv :=
  { tx_context := List.replicate PANDA_MAX_TX_URBS { ndx := PANDA_CTX_FREE, dlc := 0 },
    free_ctx_cnt := (PANDA_MAX_TX_URBS : Int) }

/-- Observable actions of the pool functions, the TX completion callback
and the transmit path, listed in program order in each function's trace. -/
inductive Event where
  | reserveSlot (i : Nat)      -- `ctx->ndx = i` in the acquire scan
  | decrementCnt               -- `atomic_dec(&priv->free_ctx_cnt)`
  | checkZero (isZero : Bool)  -- the `atomic_read` in the `if (!...)` test
  | stopQueue                  -- `netif_stop_queue`
  | incrementCnt               -- `atomic_inc(&ctx->priv->free_ctx_cnt)`
  | markFree                   -- `ctx->ndx = PANDA_CTX_FREE`
  | wakeQueue                  -- `netif_wake_queue`
  | freeBuffer                 -- `usb_free_coherent`
  | txPacketsInc               -- `netdev->stats.tx_packets++`
  | txBytesAdd (n : Nat)       -- `netdev->stats.tx_bytes += ctx->dlc`
  | getEchoSkb (i : Nat)       -- `can_get_echo_skb(netdev, ctx->ndx)`
  | logWarn                    -- `netdev_info` on nonzero URB status
  | putEchoSkb (i : Nat)       -- `can_put_echo_skb(skb, netdev, ctx->ndx)`
  | submitMsg (m : panda_usb_can_msg)  -- `panda_usb_xmit` submission
  | freeEchoSkb (i : Nat)      -- `can_free_echo_skb(netdev, ctx->ndx)`
  | kfreeSkb                   -- `dev_kfree_skb`
  deriving Repr, DecidableEq

/-- `panda_usb_get_free_ctx` (panda.c lines 80-105): scan for the first
slot whose `ndx` is `PANDA_CTX_FREE`, reserve it (`ndx = i`,
`dlc = cf->can_dlc`) and decrement `free_ctx_cnt`; afterwards re-read the
counter and stop the netdev queue when it reads zero.  Returns the acquired
slot index (`none` models the NULL return), the new state, and the trace of
observable actions in program order. -/
def panda_usb_get_free_ctx (priv : panda_priv) (cf : can_frame) :
    Option Nat × panda_priv × List Event :=
  let scan :=
    match priv.tx_context.findIdx? (fun c => c.ndx == PANDA_CTX_FREE) with
    | some i =>
        (some i,
         { priv with
             tx_context := priv.tx_context.set i { ndx := i, dlc := cf.can_dlc },
             free_ctx_cnt := priv.free_ctx_cnt - 1 },
         [Event.reserveSlot i, Event.decrementCnt])
    | none => (none, priv, [])
  match scan with
  | (ctx, priv1, tr) =>
      if priv1.free_ctx_cnt = 0 then
        (ctx, priv1, tr ++ [Event.checkZero true, Event.stopQueue])
      else
        (ctx, priv1, tr ++ [Event.checkZero false])

/-- `panda_usb_free_ctx` (panda.c lines 110-119): increment `free_ctx_cnt`,
then set the slot's `ndx` back to `PANDA_CTX_FREE`, then wake the netdev
queue; the trace lists these effects in program order. -/
def panda_usb_free_ctx (priv : panda_priv) (i : Nat) : panda_priv × List Event :=
  let priv1 : panda_priv := { priv with free_ctx_cnt := priv.free_ctx_cnt + 1 }
  let priv2 : panda_priv :=
    { priv1 with
        tx_context := priv1.tx_context.set i
          { priv1.tx_context.getD i { ndx := PANDA_CTX_FREE, dlc := 0 } with
              ndx := PANDA_CTX_FREE } }
  (priv2, [Event.incrementCnt, Event.markFree, Event.wakeQueue])

/-- A pool state together with the ghost list of live handles (slot indices
acquired and not yet released, in acquisition order). -/
structure RunState where
  priv : panda_priv
  live : List Nat
  deriving Repr, DecidableEq

/-- The state established by `panda_init_ctx`, with no live handle. -/
def initRun : RunState := { priv := panda_init_ctx, live := [] }

/-- Effect of one `panda_usb_get_free_ctx` call on a run state: when a slot
is handed out its index joins the live list. -/
def stepAcquire (s : RunState) (cf : can_frame) : RunState :=
  match panda_usb_get_free_ctx s.priv cf with
  | (some i, priv1, _) => { priv := priv1, live := s.live ++ [i] }
  | (none, priv1, _) => { priv := priv1, live := s.live }

/-- Effect of one `panda_usb_free_ctx` call on a run state: the released
handle leaves the live list. -/
def stepRelease (s : RunState) (i : Nat) : RunState :=
  { priv := (panda_usb_free_ctx s.priv i).1, live := s.live.erase i }

/-- One pool call. -/
inductive PoolAction where
  | acquire (cf : can_frame)
  | release (i : Nat)

/-- Protocol-respecting call sequences: any `acquire` may be issued at any
time; a `release` only of a currently live handle (each release matches a
prior acquire). -/
inductive LegalRun : RunState → List PoolAction → RunState → Prop
  | nil (s : RunState) : LegalRun s [] s
  | acquire (s : RunState) (cf : can_frame) (acts : List PoolAction)
      (s' : RunState) :
      LegalRun (stepAcquire s cf) acts s' →
      LegalRun s (PoolAction.acquire cf :: acts) s'
  | release (s : RunState) (i : Nat) (acts : List PoolAction) (s' : RunState) :
      i ∈ s.live →
      LegalRun (stepRelease s i) acts s' →
      LegalRun s (PoolAction.release i :: acts) s'

/-- The inductive pool invariant: the array has its fixed size, live handles
are distinct in-range indices, a slot's `ndx` is its own index exactly when
it is live (and otherwise the free sentinel), and the counter equals
capacity minus the number of live handles. -/
def PoolInv (s : RunState) : Prop :=
  s.priv.tx_context.length = PANDA_MAX_TX_URBS ∧
  s.live.Nodup ∧
  (∀ j ∈ s.live, j < PANDA_MAX_TX_URBS) ∧
  (∀ j (h : j < s.priv.tx_context.length),
      ((s.priv.tx_context.get ⟨j, h⟩).ndx = j ↔ j ∈ s.live) ∧
      ((s.priv.tx_context.get ⟨j, h⟩).ndx = PANDA_CTX_FREE ∨
       (s.priv.tx_context.get ⟨j, h⟩).ndx = j)) ∧
  s.priv.free_ctx_cnt = (PANDA_MAX_TX_URBS : Int) - s.live.length

/-- The `struct net_device_stats` counters panda.c touches. -/
structure net_device_stats where
  tx_packets : Nat
  tx_bytes : Nat
  tx_dropped : Nat
  rx_packets : Nat
  rx_bytes : Nat
  deriving Repr, DecidableEq

/-- All-zero statistics. -/
def stats0 : net_device_stats :=
  { tx_packets := 0, tx_bytes := 0, tx_dropped := 0, rx_packets := 0, rx_bytes := 0 }

/-- `panda_usb_write_bulk_callback` (panda.c lines 140-166): free the
transfer buffer; if the netdev is gone (`present = false`) return at once;
otherwise bump `tx_packets`, add the context's recorded `dlc` to
`tx_bytes`, finalize the echoed skb, log a warning when `status` is
nonzero, and finally release the context.  `i` is the callback context's
slot index; the slot's recorded fields are read from the pool state. -/
def panda_usb_write_bulk_callback (priv : panda_priv) (stats : net_device_stats)
    (i : Nat) (present : Bool) (status : Int) :
    panda_priv × net_device_stats × List Event :=
  if !present then (priv, stats, [Event.freeBuffer])
  else
    let ctx := priv.tx_context.getD i { ndx := PANDA_CTX_FREE, dlc := 0 }
    let stats1 := { stats with tx_packets := stats.tx_packets + 1,
                               tx_bytes := stats.tx_bytes + ctx.dlc }
    let tr1 := [Event.freeBuffer, Event.txPacketsInc, Event.txBytesAdd ctx.dlc,
                Event.getEchoSkb ctx.ndx]
    let tr2 := if status ≠ 0 then tr1 ++ [Event.logWarn] else tr1
    match panda_usb_free_ctx priv i with
    | (priv1, tr3) => (priv1, stats1, tr2 ++ tr3)

/-- `panda_usb_start_xmit` (panda.c lines 398-449), with the environment's
choices explicit: `dropped_invalid` is the verdict of
`can_dropped_invalid_skb`, and `xmit_err` the return value of
`panda_usb_xmit` (0 = success, nonzero = synchronous submission failure).
`none` models the NULL-pointer dereference `ctx->ndx` that the code
performs when the pool was empty; otherwise the new pool state, statistics
and trace are returned. -/
def panda_usb_start_xmit (priv : panda_priv) (stats : net_device_stats)
    (cf : can_frame) (dropped_invalid : Bool) (xmit_err : Int) :
    Option (panda_priv × net_device_stats × List Event) :=
  if dropped_invalid then some (priv, stats, [])
  else
    match panda_usb_get_free_ctx priv cf with
    | (none, _, _) => none
    | (some i, priv1, tr1) =>
        let usb_msg := encode_msg cf 0
        if xmit_err ≠ 0 then
          match panda_usb_free_ctx priv1 i with
          | (priv2, tr3) =>
              some (priv2,
                { stats with tx_dropped := stats.tx_dropped + 1 },
                tr1 ++ [Event.putEchoSkb i, Event.submitMsg usb_msg,
                  Event.freeEchoSkb i] ++ tr3 ++ [Event.kfreeSkb])
        else
          some (priv1, stats, tr1 ++ [Event.putEchoSkb i, Event.submitMsg usb_msg])

/-- `panda_usb_process_can_rx` (panda.c lines 223-253): `allocOk` models
whether `alloc_can_skb` succeeds; on failure the function returns with no
other effect — the message is lost and no counter changes.  On success the
message is decoded, `rx_packets`/`rx_bytes` are bumped and the frame is
handed to `netif_rx`. -/
def panda_usb_process_can_rx (stats : net_device_stats)
    (msg : panda_usb_can_msg) (allocOk : Bool) :
    net_device_stats × Option can_frame :=
  if !allocOk then (stats, none)
  else
    let cf := decode_msg msg
    ({ stats with rx_packets := stats.rx_packets + 1,
                  rx_bytes := stats.rx_bytes + cf.can_dlc }, some cf)

/-- Reassemble the little-endian `u32` that casting the buffer to
`struct panda_usb_can_msg` (packed) reads from four bytes. -/
def le32 (b0 b1 b2 b3 : Nat) : Nat :=
  b0 + b1 * 256 + b2 * 65536 + b3 * 16777216

/-- The wire message obtained by casting 16 consecutive buffer bytes to
`struct panda_usb_can_msg`. -/
def msg_of_bytes (bs : List Nat) : panda_usb_can_msg :=
  { rir := le32 (bs.getD 0 0) (bs.getD 1 0) (bs.getD 2 0) (bs.getD 3 0),
    bus_dat_len := le32 (bs.getD 4 0) (bs.getD 5 0) (bs.getD 6 0) (bs.getD 7 0),
    data := (bs.drop 8).take 8 }

/-- The message walk of `panda_usb_read_int_callback`'s success path
(panda.c lines 279-293): starting at `pos`, each complete 16-byte message
is handed to `panda_usb_process_can_rx` in order; a trailing fragment
(`pos + 16 > actual_length`) stops the walk and logs "format error".
Returns the delivered messages and whether the format error was logged. -/
def panda_usb_read_loop (buf : List Nat) (pos : Nat) :
    List panda_usb_can_msg × Bool :=
  if _h : pos < buf.length then
    if buf.length < pos + 16 then ([], true)
    else
      let m := msg_of_bytes ((buf.drop pos).take 16)
      match panda_usb_read_loop buf (pos + 16) with
      | (rest, err) => (m :: rest, err)
  else ([], false)
termination_by buf.length - pos
decreasing_by omega

/-- The whole-buffer walk, as the RX completion handler performs it. -/
def panda_usb_read_int_callback (buf : List Nat) :
    List panda_usb_can_msg × Bool :=
  panda_usb_read_loop buf 0

/-- State-level pool consistency (what `PoolInv` implies for the bare
`panda_priv`): fixed array size and the counter equal to the number of free
slots. -/
def freeSlotCount (priv : panda_priv) : Nat :=
  priv.tx_context.countP (fun c => c.ndx == PANDA_CTX_FREE)

/-- The pool state is consistent: full-size array, counter = free slots. -/
def pool_consistent (priv : panda_priv) : Prop :=
  priv.tx_context.length = PANDA_MAX_TX_URBS ∧
  priv.free_ctx_cnt = (freeSlotCount priv : Int)

/-- Fixture: a pool with exactly one free slot (slot 0) and 19 busy ones. -/
def onefree_priv : panda_priv :=
  { tx_context :=
      { ndx := PANDA_CTX_FREE, dlc := 0 } ::
        (List.range 19).map (fun j => { ndx := j + 1, dlc := 0 }),
    free_ctx_cnt := 1 }

/-- Fixture: a fully busy pool (every slot's `ndx` is its own index). -/
def full_priv : panda_priv :=
  { tx_context := (List.range 20).map (fun j => { ndx := j, dlc := 0 }),
    free_ctx_cnt := 0 }

/-- Fixture: an arbitrary frame used in witnesses. -/
def cf0 : can_frame := { can_id := 0x123, can_dlc := 3, data := [1, 2, 3] }

/-- Fixture: a wire message whose DLC field holds 15. -/
def msg15 : panda_usb_can_msg :=
  { rir := 0, bus_dat_len := 15, data := [10, 11, 12, 13, 14, 15, 16, 17] }

lemma shiftLeft_lor_small (a b k : Nat) (hb : b < 2 ^ k) :
    (a <<< k) ||| b = a * 2 ^ k + b := by
  rw [Nat.shiftLeft_eq, Nat.mul_comm]
  exact (Nat.mul_add_lt_is_or hb a).symm

lemma lor_two_pow_of_lt {b k : Nat} (hb : b < 2 ^ k) :
    b ||| 2 ^ k = 2 ^ k + b := by
  rw [Nat.lor_comm]
  have h := Nat.mul_add_lt_is_or hb 1
  simpa using h.symm

lemma and_four_of_form (b : Nat) : (8 * b + 5) &&& 4 = 4 := by
  have h4 : (4 : Nat) = 2 ^ 2 := by norm_num
  conv_lhs => rw [h4]
  rw [Nat.and_two_pow]
  have ht : (8 * b + 5).testBit 2 = true := by
    rw [Nat.testBit_to_div_mod, decide_eq_true_eq]
    have h2 : (2 : Nat) ^ 2 = 4 := by norm_num
    rw [h2]; omega
  rw [ht]; norm_num

lemma and_four_of_std (a : Nat) : (a * 2 ^ 21 + 1) &&& 4 = 0 := by
  have h4 : (4 : Nat) = 2 ^ 2 := by norm_num
  rw [h4, Nat.and_two_pow]
  have ht : (a * 2 ^ 21 + 1).testBit 2 = false := by
    rw [Nat.testBit_to_div_mod, decide_eq_false_iff_not]
    have h21 : (2 : Nat) ^ 21 = 2097152 := by norm_num
    have h2 : (2 : Nat) ^ 2 = 4 := by norm_num
    rw [h21, h2]
    omega
  rw [ht]; norm_num

/-- C1: for every valid CAN frame (standard or extended id in range, DLC
0-8, payload of exactly DLC bytes), decoding the wire message produced by
encoding it — the packing of `panda_usb_start_xmit` followed by the
unpacking of `panda_usb_process_can_rx` — yields back the same id word
(hence the same arbitration id and extended flag), the same DLC and the
same payload bytes. -/
theorem decode_encode_roundtrip (cf : can_frame) (h : valid_frame cf) :
    decode_msg (encode_msg cf 0) = cf := by
  obtain ⟨hdlc, hlen, hid⟩ := h
  have h1 : cf.data.take cf.can_dlc = cf.data := by
    rw [← hlen]; exact List.take_length cf.data
  have hdata :
      (cf.data.take cf.can_dlc ++ List.replicate (8 - cf.can_dlc) 0).take
        cf.can_dlc = cf.data := by
    rw [h1]; exact List.take_left' hlen
  have hdlcdec : cf.can_dlc &&& 0x0F = cf.can_dlc := by
    have h15 : (0x0F : Nat) = 2 ^ 4 - 1 := by norm_num
    rw [h15, Nat.and_pow_two_sub_one_eq_mod]
    exact Nat.mod_eq_of_lt (lt_of_le_of_lt hdlc (by norm_num))
  have hbus : ((cf.can_dlc &&& 0x0F) ||| ((0 : Nat) <<< 4)) % 2 ^ 32 =
      cf.can_dlc := by
    have hz : ((0 : Nat) <<< 4) = 0 := by simp
    rw [hdlcdec, hz, Nat.or_zero,
      Nat.mod_eq_of_lt (lt_of_le_of_lt hdlc (by norm_num))]
  have hclamp : min cf.can_dlc 8 = cf.can_dlc := Nat.min_eq_left hdlc
  rcases hid with hstd | ⟨b, hb, hbe⟩
  · -- standard 11-bit id
    have heff : cf.can_id &&& 0x80000000 = 0 := by
      have h31 : (0x80000000 : Nat) = 2 ^ 31 := by norm_num
      rw [h31, Nat.and_two_pow,
        Nat.testBit_lt_two_pow (lt_of_lt_of_le hstd (by norm_num))]
      norm_num
    have hmask : cf.can_id &&& 0x7FF = cf.can_id := by
      have h11 : (0x7FF : Nat) = 2 ^ 11 - 1 := by norm_num
      rw [h11, Nat.and_pow_two_sub_one_eq_mod, Nat.mod_eq_of_lt hstd]
    have hrir : ((cf.can_id &&& 0x7FF) <<< 21) ||| 1 =
        cf.can_id * 2 ^ 21 + 1 := by
      rw [hmask]
      exact shiftLeft_lor_small _ _ _ (by norm_num)
    have hlt : cf.can_id * 2 ^ 21 + 1 < 2 ^ 32 := by
      have e21 : (2 : Nat) ^ 21 = 2097152 := by norm_num
      have e32 : (2 : Nat) ^ 32 = 4294967296 := by norm_num
      have e11 : (2 : Nat) ^ 11 = 2048 := by norm_num
      rw [e21, e32]; rw [e11] at hstd; nlinarith
    have hshift : (cf.can_id * 2 ^ 21 + 1) >>> 21 = cf.can_id := by
      rw [Nat.shiftRight_eq_div_pow]
      have e21 : (2 : Nat) ^ 21 = 2097152 := by norm_num
      rw [e21]; omega
    simp only [encode_msg, decode_msg, get_can_dlc, PANDA_CAN_TRANSMIT,
      PANDA_CAN_EXTENDED, PANDA_DLC_MASK, CAN_EFF_FLAG]
    rw [if_neg (not_ne_iff.mpr heff), hrir, Nat.mod_eq_of_lt hlt,
      if_neg (not_ne_iff.mpr (and_four_of_std cf.can_id)), hshift, hbus,
      hdlcdec, hclamp, hdata]
  · -- extended 29-bit id
    simp only [CAN_EFF_FLAG] at hbe
    have hcanid : cf.can_id = 2 ^ 31 + b := by
      rw [hbe]
      have h31 : (0x80000000 : Nat) = 2 ^ 31 := by norm_num
      rw [h31]
      exact lor_two_pow_of_lt (lt_of_lt_of_le hb (by norm_num))
    have heff : cf.can_id &&& 0x80000000 ≠ 0 := by
      have h31 : (0x80000000 : Nat) = 2 ^ 31 := by norm_num
      rw [h31, Nat.and_two_pow]
      have ht : cf.can_id.testBit 31 = true := by
        rw [Nat.testBit_to_div_mod, decide_eq_true_eq, hcanid]
        have e31 : (2 : Nat) ^ 31 = 2147483648 := by norm_num
        have e29 : (2 : Nat) ^ 29 = 536870912 := by norm_num
        rw [e31]
        rw [e29] at hb
        omega
      rw [ht]; norm_num
    have hmask : cf.can_id &&& 0x1FFFFFFF = b := by
      have h29 : (0x1FFFFFFF : Nat) = 2 ^ 29 - 1 := by norm_num
      rw [h29, Nat.and_pow_two_sub_one_eq_mod, hcanid]
      have e31 : (2 : Nat) ^ 31 = 2147483648 := by norm_num
      have e29 : (2 : Nat) ^ 29 = 536870912 := by norm_num
      rw [e31, e29]
      rw [e29] at hb
      omega
    have hrir : ((b <<< 3) ||| 1) ||| 4 = 8 * b + 5 := by
      rw [Nat.lor_assoc]
      have h14 : (1 : Nat) ||| 4 = 5 := by decide
      rw [h14, shiftLeft_lor_small _ _ _ (by norm_num : (5 : Nat) < 2 ^ 3)]
      ring
    have hlt : 8 * b + 5 < 2 ^ 32 := by
      have e29 : (2 : Nat) ^ 29 = 536870912 := by norm_num
      have e32 : (2 : Nat) ^ 32 = 4294967296 := by norm_num
      rw [e32]; rw [e29] at hb; omega
    have hne : (8 * b + 5) &&& 4 ≠ 0 := by
      rw [and_four_of_form]; norm_num
    have hshift : (8 * b + 5) >>> 3 = b := by
      rw [Nat.shiftRight_eq_div_pow]
      have e3 : (2 : Nat) ^ 3 = 8 := by norm_num
      rw [e3]; omega
    simp only [encode_msg, decode_msg, get_can_dlc, PANDA_CAN_TRANSMIT,
      PANDA_CAN_EXTENDED, PANDA_DLC_MASK, CAN_EFF_FLAG]
    rw [if_pos heff, hmask, hrir, Nat.mod_eq_of_lt hlt, if_pos hne, hshift,
      ← hbe, hbus, hdlcdec, hclamp, hdata]

lemma get_free_ctx_eq_some (cf : can_frame) {priv : panda_priv} {i : Nat}
    (h : priv.tx_context.findIdx? (fun c => c.ndx == PANDA_CTX_FREE) = some i) :
    ∃ tr, panda_usb_get_free_ctx priv cf =
      (some i,
       { priv with
           tx_context := priv.tx_context.set i { ndx := i, dlc := cf.can_dlc },
           free_ctx_cnt := priv.free_ctx_cnt - 1 }, tr) := by
  unfold panda_usb_get_free_ctx
  simp only [h]
  split
  · exact ⟨_, rfl⟩
  · exact ⟨_, rfl⟩

lemma get_free_ctx_eq_none (cf : can_frame) {priv : panda_priv}
    (h : priv.tx_context.findIdx? (fun c => c.ndx == PANDA_CTX_FREE) = none) :
    ∃ tr, panda_usb_get_free_ctx priv cf = (none, priv, tr) := by
  unfold panda_usb_get_free_ctx
  simp only [h]
  split
  · exact ⟨_, rfl⟩
  · exact ⟨_, rfl⟩

lemma stepAcquire_some (s : RunState) (cf : can_frame) (i : Nat)
    (h : s.priv.tx_context.findIdx? (fun c => c.ndx == PANDA_CTX_FREE) = some i) :
    stepAcquire s cf =
      { priv := { tx_context := s.priv.tx_context.set i { ndx := i, dlc := cf.can_dlc },
                  free_ctx_cnt := s.priv.free_ctx_cnt - 1 },
        live := s.live ++ [i] } := by
  obtain ⟨tr, hE⟩ := get_free_ctx_eq_some cf h
  unfold stepAcquire
  rw [hE]

lemma stepAcquire_none (s : RunState) (cf : can_frame)
    (h : s.priv.tx_context.findIdx? (fun c => c.ndx == PANDA_CTX_FREE) = none) :
    stepAcquire s cf = s := by
  obtain ⟨tr, hE⟩ := get_free_ctx_eq_none cf h
  unfold stepAcquire
  rw [hE]

lemma stepRelease_eq (s : RunState) (i : Nat) :
    stepRelease s i =
      { priv := { tx_context := s.priv.tx_context.set i
                    { s.priv.tx_context.getD i { ndx := PANDA_CTX_FREE, dlc := 0 } with
                        ndx := PANDA_CTX_FREE },
                  free_ctx_cnt := s.priv.free_ctx_cnt + 1 },
        live := s.live.erase i } := rfl

lemma pool_inv_init : PoolInv initRun := by
  refine ⟨by simp [initRun, panda_init_ctx], List.nodup_nil,
    by simp [initRun], ?_, by simp [initRun, panda_init_ctx]⟩
  intro j hj
  have h20 : PANDA_CTX_FREE = 20 := rfl
  have h20' : PANDA_MAX_TX_URBS = 20 := rfl
  have hj' : j < 20 := by
    have := hj
    simp [initRun, panda_init_ctx, h20'] at this
    exact this
  rw [List.get_eq_getElem]
  have hval : initRun.priv.tx_context[j] = { ndx := PANDA_CTX_FREE, dlc := 0 } := by
    simp [initRun, panda_init_ctx]
  rw [hval]
  refine ⟨⟨fun hx => ?_, fun hx => ?_⟩, Or.inl rfl⟩
  · exfalso
    have hx' : (20 : Nat) = j := hx
    omega
  · simp [initRun] at hx

lemma pool_inv_stepAcquire (s : RunState) (cf : can_frame) (hinv : PoolInv s) :
    PoolInv (stepAcquire s cf) := by
  obtain ⟨hlen, hnodup, hbound, hslots, hcnt⟩ := hinv
  cases hfind : s.priv.tx_context.findIdx? (fun c => c.ndx == PANDA_CTX_FREE) with
  | none =>
      rw [stepAcquire_none s cf hfind]
      exact ⟨hlen, hnodup, hbound, hslots, hcnt⟩
  | some i =>
      obtain ⟨hilen, hpi, -⟩ := List.findIdx?_eq_some_iff_getElem.mp hfind
      simp only [beq_iff_eq] at hpi
      have h20 : PANDA_CTX_FREE = 20 := rfl
      have h20' : PANDA_MAX_TX_URBS = 20 := rfl
      have hi20 : i < PANDA_MAX_TX_URBS := hlen ▸ hilen
      have hinotlive : i ∉ s.live := by
        intro hmem
        have hx := (hslots i hilen).1.mpr hmem
        rw [List.get_eq_getElem, hpi] at hx
        rw [h20] at hx
        rw [h20'] at hi20
        omega
      rw [stepAcquire_some s cf i hfind]
      refine ⟨by simpa using hlen, ?_, ?_, ?_, ?_⟩
      · exact hnodup.append (List.nodup_singleton i)
          (List.disjoint_singleton.mpr hinotlive)
      · intro j hj
        rcases List.mem_append.mp hj with hj | hj
        · exact hbound j hj
        · simp at hj; subst hj; exact hi20
      · intro j hjlen
        have hjlen' : j < s.priv.tx_context.length := by simpa using hjlen
        by_cases hji : j = i
        · subst hji
          rw [List.get_eq_getElem]
          rw [List.getElem_set_self (by simpa using hjlen')]
          refine ⟨⟨fun _ => List.mem_append.mpr (Or.inr (by simp)), fun _ => rfl⟩,
            Or.inr rfl⟩
        · rw [List.get_eq_getElem, List.getElem_set_ne (fun h => hji h.symm)]
          have hold := hslots j hjlen'
          rw [List.get_eq_getElem] at hold
          refine ⟨?_, hold.2⟩
          rw [hold.1]
          constructor
          · intro hm; exact List.mem_append.mpr (Or.inl hm)
          · intro hm
            rcases List.mem_append.mp hm with hm | hm
            · exact hm
            · simp at hm; exact absurd hm hji
      · rw [List.length_append]
        simp only [List.length_singleton]
        rw [hcnt]
        push_cast
        ring

lemma pool_inv_stepRelease (s : RunState) (i : Nat) (hmem : i ∈ s.live)
    (hinv : PoolInv s) : PoolInv (stepRelease s i) := by
  obtain ⟨hlen, hnodup, hbound, hslots, hcnt⟩ := hinv
  have h20 : PANDA_CTX_FREE = 20 := rfl
  have h20' : PANDA_MAX_TX_URBS = 20 := rfl
  have hi20 : i < PANDA_MAX_TX_URBS := hbound i hmem
  have hilen : i < s.priv.tx_context.length := by rw [hlen]; exact hi20
  rw [stepRelease_eq]
  refine ⟨by simpa using hlen, hnodup.erase i, ?_, ?_, ?_⟩
  · intro j hj
    exact hbound j (List.mem_of_mem_erase hj)
  · intro j hjlen
    have hjlen' : j < s.priv.tx_context.length := by simpa using hjlen
    by_cases hji : j = i
    · subst hji
      rw [List.get_eq_getElem]
      rw [List.getElem_set_self (by simpa using hjlen')]
      refine ⟨⟨fun hx => ?_, fun hm => ?_⟩, Or.inl rfl⟩
      · exfalso
        have hx' : (20 : Nat) = j := hx
        rw [h20'] at hi20
        omega
      · exact absurd hm hnodup.not_mem_erase
    · rw [List.get_eq_getElem, List.getElem_set_ne (fun h => hji h.symm)]
      have hold := hslots j hjlen'
      rw [List.get_eq_getElem] at hold
      refine ⟨?_, hold.2⟩
      rw [hold.1]
      exact (List.mem_erase_of_ne hji).symm
  · rw [List.length_erase_of_mem hmem, hcnt]
    have hpos : 0 < s.live.length := List.length_pos_of_mem hmem
    push_cast [Nat.cast_sub (by omega : 1 ≤ s.live.length)]
    ring

lemma pool_inv_run {s : RunState} {acts : List PoolAction} {s' : RunState}
    (hrun : LegalRun s acts s') : PoolInv s → PoolInv s' := by
  induction hrun with
  | nil _ => exact id
  | acquire s cf acts s' _ ih =>
      exact fun hinv => ih (pool_inv_stepAcquire _ _ hinv)
  | release s i acts s' hmem _ ih =>
      exact fun hinv => ih (pool_inv_stepRelease _ _ hmem hinv)

lemma live_length_le (l : List Nat) (hnodup : l.Nodup)
    (hbound : ∀ j ∈ l, j < PANDA_MAX_TX_URBS) :
    l.length ≤ PANDA_MAX_TX_URBS := by
  have hsub : l ⊆ List.range PANDA_MAX_TX_URBS := by
    intro a ha
    exact List.mem_range.mpr (hbound a ha)
  have hle := (List.subperm_of_subset hnodup hsub).length_le
  simpa using hle

/-- C2: along every protocol-respecting sequence of
`panda_usb_get_free_ctx` / `panda_usb_free_ctx` calls from the state
established by `panda_init_ctx` (each release matching a prior acquire),
the counter `free_ctx_cnt` stays within `[0, PANDA_MAX_TX_URBS]`, and the
handles acquired and not yet released reference pairwise distinct slot
indices. -/
theorem pool_invariant_holds (acts : List PoolAction) (s' : RunState)
    (h : LegalRun initRun acts s') :
    0 ≤ s'.priv.free_ctx_cnt ∧
    s'.priv.free_ctx_cnt ≤ (PANDA_MAX_TX_URBS : Int) ∧
    s'.live.Nodup := by
  obtain ⟨hlen, hnodup, hbound, hslots, hcnt⟩ := pool_inv_run h pool_inv_init
  have hle := live_length_le s'.live hnodup hbound
  refine ⟨?_, ?_, hnodup⟩ <;> rw [hcnt] <;> omega

/-- Witness for C2: the one-step run that acquires a single slot. -/
theorem pool_invariant_holds_witness :
    0 ≤ (stepAcquire initRun cf0).priv.free_ctx_cnt ∧
    (stepAcquire initRun cf0).priv.free_ctx_cnt ≤ (PANDA_MAX_TX_URBS : Int) ∧
    (stepAcquire initRun cf0).live.Nodup :=
  pool_invariant_holds [PoolAction.acquire cf0] (stepAcquire initRun cf0)
    (LegalRun.acquire initRun cf0 [] (stepAcquire initRun cf0)
      (LegalRun.nil (stepAcquire initRun cf0)))

/-- C3: when `panda_usb_get_free_ctx` successfully takes the last free slot
(the counter reads zero after the call), its full observable trace is:
reserve the slot, decrement the counter, re-read it (observing zero, i.e.
after the decrement), stop the queue — so `netif_stop_queue` is issued
before the call returns, and the is-this-the-last-slot test happens
strictly after the slot is reserved and the count decremented. -/
theorem get_free_ctx_backpressure (priv : panda_priv) (cf : can_frame) (i : Nat)
    (hacq : (panda_usb_get_free_ctx priv cf).1 = some i)
    (hzero : (panda_usb_get_free_ctx priv cf).2.1.free_ctx_cnt = 0) :
    (panda_usb_get_free_ctx priv cf).2.2 =
      [Event.reserveSlot i, Event.decrementCnt, Event.checkZero true,
       Event.stopQueue] := by
  simp only [panda_usb_get_free_ctx] at hacq hzero ⊢
  rcases hfind : priv.tx_context.findIdx? (fun c => c.ndx == PANDA_CTX_FREE) with _ | j
  all_goals rw [hfind] at hacq hzero ⊢
  · split at hacq <;> simp_all
  · split at hzero <;> split at hacq <;> simp_all

/-- Witness for C3: a pool with one free slot; acquiring it empties the
pool and the trace ends in `netif_stop_queue`. -/
theorem get_free_ctx_backpressure_witness :
    (panda_usb_get_free_ctx onefree_priv cf0).1 = some 0 ∧
    (panda_usb_get_free_ctx onefree_priv cf0).2.1.free_ctx_cnt = 0 ∧
    (panda_usb_get_free_ctx onefree_priv cf0).2.2 =
      [Event.reserveSlot 0, Event.decrementCnt, Event.checkZero true,
       Event.stopQueue] :=
  ⟨by decide, by decide,
    get_free_ctx_backpressure onefree_priv cf0 0 (by decide) (by decide)⟩

/-- C4 counterexample: at a concrete input (the initial pool, slot 0), the
trace of `panda_usb_free_ctx` is `[incrementCnt, markFree, wakeQueue]`: the
mark-free store does NOT precede the counter increment, so the claimed
order "first marks the slot free, then increments the free count" is
false (the code increments first — its own comment says so). -/
theorem free_ctx_order_counterexample :
    ¬ ((panda_usb_free_ctx panda_init_ctx 0).2.indexOf Event.markFree <
       (panda_usb_free_ctx panda_init_ctx 0).2.indexOf Event.incrementCnt) := by
  decide

/-- C4 (amended): `panda_usb_free_ctx` first increments the free count,
then marks the slot free, and then signals resume (`netif_wake_queue`)
unconditionally; in particular the resume signal is issued strictly after
the slot is marked free. -/
theorem free_ctx_order (priv : panda_priv) (i : Nat) :
    (panda_usb_free_ctx priv i).2 =
      [Event.incrementCnt, Event.markFree, Event.wakeQueue] := rfl

/-- C5 counterexample: when the netdev is absent (`netif_device_present`
returns false) the TX completion callback frees the transfer buffer and
returns at once: no counter is updated and, in particular,
`panda_usb_free_ctx` is never called — the claim fails for this
invocation. -/
theorem write_bulk_callback_counterexample :
    panda_usb_write_bulk_callback full_priv stats0 0 false 0 =
      (full_priv, stats0, [Event.freeBuffer]) ∧
    Event.markFree ∉ (panda_usb_write_bulk_callback full_priv stats0 0 false 0).2.2 := by
  decide

/-- C5 (amended): whenever the TX completion callback runs with the netdev
present it frees the transfer buffer, increments `tx_packets`, adds the
slot's recorded DLC to `tx_bytes`, finalizes the echoed skb, logs a warning
exactly when the URB status is nonzero, and finally — after all of the
above — releases the context slot; when the netdev is absent it only frees
the buffer and returns without releasing the context. -/
theorem write_bulk_callback_effects (priv : panda_priv)
    (stats : net_device_stats) (i : Nat) (status : Int) :
    panda_usb_write_bulk_callback priv stats i true status =
      ((panda_usb_free_ctx priv i).1,
       { stats with
           tx_packets := stats.tx_packets + 1,
           tx_bytes := stats.tx_bytes +
             (priv.tx_context.getD i { ndx := PANDA_CTX_FREE, dlc := 0 }).dlc },
       [Event.freeBuffer, Event.txPacketsInc,
          Event.txBytesAdd
            (priv.tx_context.getD i { ndx := PANDA_CTX_FREE, dlc := 0 }).dlc,
          Event.getEchoSkb
            (priv.tx_context.getD i { ndx := PANDA_CTX_FREE, dlc := 0 }).ndx] ++
         (if status ≠ 0 then [Event.logWarn] else []) ++
         [Event.incrementCnt, Event.markFree, Event.wakeQueue]) ∧
    panda_usb_write_bulk_callback priv stats i false status =
      (priv, stats, [Event.freeBuffer]) := by
  constructor
  · by_cases h : status = 0 <;>
      simp [panda_usb_write_bulk_callback, panda_usb_free_ctx, h]
  · rfl

/-- C7: decoding a wire message whose DLC field (low 4 bits of
`bus_dat_len`) exceeds 8 yields a frame with DLC exactly 8, and the payload
read is exactly the first 8 bytes of the message's 8-byte data region — no
byte beyond index 7 is read. -/
theorem decode_dlc_clamped (msg : panda_usb_can_msg)
    (h : 8 < msg.bus_dat_len &&& PANDA_DLC_MASK) :
    (decode_msg msg).can_dlc = 8 ∧ (decode_msg msg).data = msg.data.take 8 := by
  have hmin : get_can_dlc (msg.bus_dat_len &&& PANDA_DLC_MASK) = 8 := by
    unfold get_can_dlc
    exact Nat.min_eq_right (le_of_lt h)
  exact ⟨by simp [decode_msg, hmin], by simp [decode_msg, hmin]⟩

/-- Witness for C7 at DLC field value 15. -/
theorem decode_dlc_clamped_witness :
    8 < msg15.bus_dat_len &&& PANDA_DLC_MASK ∧
    ((decode_msg msg15).can_dlc = 8 ∧
     (decode_msg msg15).data = msg15.data.take 8) :=
  ⟨by decide, decode_dlc_clamped msg15 (by decide)⟩

/-- C9 counterexample: a received wire message for which skb allocation
fails is dropped (nothing is delivered) while every statistic counter —
including `rx_dropped`, which panda.c never touches — is left exactly
unchanged, contradicting "no frame disappears without being counted". -/
theorem process_can_rx_uncounted_drop :
    panda_usb_process_can_rx stats0 msg15 false = (stats0, none) := rfl

/-- C9 (amended): a received wire message that cannot be turned into a
deliverable frame (skb allocation failure) disappears without any
statistic counter being incremented: the statistics are returned exactly
unchanged and no frame is delivered.  (Only the TX submission-failure path
counts its drop; the RX drop paths, including the trailing-fragment format
error, only log.) -/
theorem process_can_rx_alloc_failure (stats : net_device_stats)
    (msg : panda_usb_can_msg) :
    panda_usb_process_can_rx stats msg false = (stats, none) := rfl

/-- C10: when every slot is busy `panda_usb_get_free_ctx` returns NULL
(`none` here), and `panda_usb_start_xmit` immediately dereferences the
handle (`ctx->ndx`) without a NULL check; so, in a consistent pool state
and for a frame that passes validation, the transmit path avoids the NULL
dereference exactly when `free_ctx_cnt > 0` at the call. -/
theorem start_xmit_total_iff (priv : panda_priv) (stats : net_device_stats)
    (cf : can_frame) (e : Int) (hcons : pool_consistent priv) :
    ((panda_usb_get_free_ctx priv cf).1 = none ↔ freeSlotCount priv = 0) ∧
    ((panda_usb_start_xmit priv stats cf false e).isSome ↔
      0 < priv.free_ctx_cnt) := by
  obtain ⟨hlen, hcnt⟩ := hcons
  have hnone : (panda_usb_get_free_ctx priv cf).1 = none ↔
      freeSlotCount priv = 0 := by
    constructor
    · intro h
      cases hfind : priv.tx_context.findIdx? (fun c => c.ndx == PANDA_CTX_FREE) with
      | some i =>
          obtain ⟨tr, hE⟩ := get_free_ctx_eq_some cf hfind
          rw [hE] at h
          simp at h
      | none =>
          rw [List.findIdx?_eq_none_iff] at hfind
          unfold freeSlotCount
          rw [List.countP_eq_zero]
          intro c hc
          simpa using hfind c hc
    · intro h
      have hfind : priv.tx_context.findIdx?
          (fun c => c.ndx == PANDA_CTX_FREE) = none := by
        rw [List.findIdx?_eq_none_iff]
        intro c hc
        unfold freeSlotCount at h
        simpa using List.countP_eq_zero.mp h c hc
      obtain ⟨tr, hE⟩ := get_free_ctx_eq_none cf hfind
      rw [hE]
  have hx : (panda_usb_start_xmit priv stats cf false e).isSome ↔
      ¬ ((panda_usb_get_free_ctx priv cf).1 = none) := by
    cases hfind : priv.tx_context.findIdx? (fun c => c.ndx == PANDA_CTX_FREE) with
    | none =>
        obtain ⟨tr, hE⟩ := get_free_ctx_eq_none cf hfind
        unfold panda_usb_start_xmit
        rw [hE]
        simp
    | some i =>
        obtain ⟨tr, hE⟩ := get_free_ctx_eq_some cf hfind
        unfold panda_usb_start_xmit
        rw [hE]
        by_cases he : e = 0 <;> simp [he]
  refine ⟨hnone, ?_⟩
  rw [hx]
  constructor
  · intro hne
    have hcount : freeSlotCount priv ≠ 0 := fun h0 => hne (hnone.mpr h0)
    rw [hcnt]
    omega
  · intro hpos h0
    have h1 := hnone.mp h0
    rw [hcnt] at hpos
    omega

/-- Witness for C10 at the freshly initialised (consistent, all-free)
pool. -/
theorem start_xmit_total_iff_witness :
    pool_consistent panda_init_ctx ∧
    (((panda_usb_get_free_ctx panda_init_ctx cf0).1 = none ↔
        freeSlotCount panda_init_ctx = 0) ∧
     ((panda_usb_start_xmit panda_init_ctx stats0 cf0 false 0).isSome ↔
        0 < panda_init_ctx.free_ctx_cnt)) :=
  ⟨⟨by decide, by decide⟩,
    start_xmit_total_iff panda_init_ctx stats0 cf0 0 ⟨by decide, by decide⟩⟩

/-- C8: when `panda_usb_xmit` fails synchronously (nonzero return) after a
context was acquired, `panda_usb_start_xmit` frees the echoed skb, releases
the context back to the pool, frees the skb and increments `tx_dropped`;
afterwards the counter and every slot's free/busy marker are exactly as
before the call — no submission-failure path leaves a slot busy. -/
theorem xmit_failure_no_leak (priv : panda_priv) (stats : net_device_stats)
    (cf : can_frame) (e : Int) (i : Nat)
    (hfind : priv.tx_context.findIdx? (fun c => c.ndx == PANDA_CTX_FREE) = some i)
    (he : e ≠ 0) :
    ∃ p' tr,
      panda_usb_start_xmit priv stats cf false e =
        some (p', { stats with tx_dropped := stats.tx_dropped + 1 }, tr) ∧
      p'.free_ctx_cnt = priv.free_ctx_cnt ∧
      p'.tx_context.map panda_usb_ctx.ndx =
        priv.tx_context.map panda_usb_ctx.ndx ∧
      Event.freeEchoSkb i ∈ tr ∧ Event.markFree ∈ tr ∧ Event.kfreeSkb ∈ tr := by
  obtain ⟨hilen, hpi, -⟩ := List.findIdx?_eq_some_iff_getElem.mp hfind
  simp only [beq_iff_eq] at hpi
  obtain ⟨tr1, hE⟩ := get_free_ctx_eq_some cf hfind
  unfold panda_usb_start_xmit
  rw [hE]
  simp only [Bool.false_eq_true, if_false, if_pos he]
  refine ⟨_, _, rfl, ?_, ?_, ?_, ?_, ?_⟩
  · simp [panda_usb_free_ctx]
  · apply List.ext_getElem?
    intro n
    rw [List.getElem?_map, List.getElem?_map]
    by_cases hni : n = i
    · subst hni
      have hlen2 : n < (priv.tx_context.set n
          { ndx := n, dlc := cf.can_dlc }).length := by simpa using hilen
      simp only [panda_usb_free_ctx]
      rw [List.getElem?_set_self hlen2, List.getElem?_eq_getElem hilen]
      simp only [Option.map_some']
      rw [hpi]
    · simp only [panda_usb_free_ctx]
      rw [List.getElem?_set_ne (fun h => hni h.symm),
        List.getElem?_set_ne (fun h => hni h.symm)]
  · simp [panda_usb_free_ctx]
  · simp [panda_usb_free_ctx]
  · simp [panda_usb_free_ctx]

/-- Witness for C8: submission failure (-ENOMEM) at the initial pool. -/
theorem xmit_failure_no_leak_witness :
    panda_init_ctx.tx_context.findIdx?
      (fun c => c.ndx == PANDA_CTX_FREE) = some 0 ∧
    (-12 : Int) ≠ 0 ∧
    (∃ p' tr,
      panda_usb_start_xmit panda_init_ctx stats0 cf0 false (-12) =
        some (p', { stats0 with tx_dropped := stats0.tx_dropped + 1 }, tr) ∧
      p'.free_ctx_cnt = panda_init_ctx.free_ctx_cnt ∧
      p'.tx_context.map panda_usb_ctx.ndx =
        panda_init_ctx.tx_context.map panda_usb_ctx.ndx ∧
      Event.freeEchoSkb 0 ∈ tr ∧ Event.markFree ∈ tr ∧ Event.kfreeSkb ∈ tr) :=
  ⟨by decide, by decide,
    xmit_failure_no_leak panda_init_ctx stats0 cf0 (-12) 0 (by decide) (by decide)⟩

set_option maxHeartbeats 2000000 in
lemma read_loop_spec (buf : List Nat) (pos : Nat) :
    panda_usb_read_loop buf pos =
      ((List.range ((buf.length - pos) / 16)).map
        (fun k => msg_of_bytes ((buf.drop (pos + 16 * k)).take 16)),
       decide ((buf.length - pos) % 16 ≠ 0)) := by
  induction pos using panda_usb_read_loop.induct buf with
  | case1 x h1 h2 =>
      unfold panda_usb_read_loop
      rw [dif_pos h1, if_pos h2]
      have hd : (buf.length - x) / 16 = 0 := by omega
      have hm : (buf.length - x) % 16 ≠ 0 := by omega
      rw [hd]
      simp [hm]
  | case2 x h1 h2 rest err heq ih =>
      rw [heq] at ih
      injection ih with hrest herr
      subst hrest
      subst herr
      unfold panda_usb_read_loop
      rw [dif_pos h1, if_neg h2]
      rw [heq]
      dsimp only
      have hn : (buf.length - x) / 16 = (buf.length - (x + 16)) / 16 + 1 := by
        omega
      have hm : (buf.length - x) % 16 = (buf.length - (x + 16)) % 16 := by
        omega
      rw [hn, hm, List.range_succ_eq_map, List.map_cons, List.map_map]
      congr 1
      congr 1
      apply List.map_congr_left
      intro a _
      simp only [Function.comp, Nat.succ_eq_add_one]
      have harg : x + 16 + 16 * a = x + 16 * (a + 1) := by ring
      rw [harg]
  | case3 x h1 =>
      unfold panda_usb_read_loop
      rw [dif_neg h1]
      have h0 : buf.length - x = 0 := by omega
      simp [h0]

/-- C6: on a buffer whose byte count is not a multiple of the 16-byte wire
message size, the RX completion walk delivers exactly the `length / 16`
complete leading messages in wire order — the k-th delivered message is the
cast of bytes [16k, 16k+16) — hands each to `panda_usb_process_can_rx`, and
stops at the trailing fragment with the "format error" diagnostic. -/
theorem read_int_callback_framing (buf : List Nat) (h : buf.length % 16 ≠ 0) :
    (panda_usb_read_int_callback buf).1 =
      (List.range (buf.length / 16)).map
        (fun k => msg_of_bytes ((buf.drop (16 * k)).take 16)) ∧
    (panda_usb_read_int_callback buf).2 = true := by
  unfold panda_usb_read_int_callback
  rw [read_loop_spec]
  constructor
  · simp
  · simp [h]

/-- Witness for C6: a 20-byte buffer (one complete message plus a 4-byte
fragment). -/
theorem read_int_callback_framing_witness :
    (List.range 20).length % 16 ≠ 0 ∧
    ((panda_usb_read_int_callback (List.range 20)).1 =
      (List.range ((List.range 20).length / 16)).map
        (fun k => msg_of_bytes (((List.range 20).drop (16 * k)).take 16)) ∧
     (panda_usb_read_int_callback (List.range 20)).2 = true) :=
  ⟨by decide, read_int_callback_framing (List.range 20) (by decide)⟩

/-- Witness for C1 at the spec's own example: standard id 0x123, DLC 3. -/
theorem decode_encode_roundtrip_witness :
    valid_frame { can_id := 0x123, can_dlc := 3, data := [1, 2, 3] } ∧
    decode_msg (encode_msg { can_id := 0x123, can_dlc := 3, data := [1, 2, 3] } 0) =
      { can_id := 0x123, can_dlc := 3, data := [1, 2, 3] } := by
  have hv : valid_frame { can_id := 0x123, can_dlc := 3, data := [1, 2, 3] } :=
    ⟨by norm_num, by simp, Or.inl (by norm_num)⟩
  exact ⟨hv, decode_encode_roundtrip _ hv⟩

end Panda
